import Mathlib

/-!
Shallow embedding of the meshmonk registration prototype: the functions
`fuse_affinities`, `affinity_to_correspondences`, `rigid_transformation`,
`vector_block_average`, the Gaussian interpolation/smoothing helpers and
`viscoelastic_transformation`.

Matrices are total functions `Fin rows → Fin cols → ℚ`; the C++ `float`
arithmetic is modelled by exact rational arithmetic.  Two external seams are
made explicit as parameters, each documented at its use site: the rotation
quaternion returned by Eigen's `SelfAdjointEigenSolver` (external library
code), and the `std::exp` Gaussian kernel together with the
`k_nearest_neighbours` index lookup (`helper_functions.hpp`, which is not
among the sources at hand).
-/

namespace registration

/-- Number of feature columns (`registration::NUM_FEATURES`): x, y, z, nx, ny, nz. -/
def NUM_FEATURES : ℕ := 6

/-- Index of position column `d` (columns 0..2) inside a 6-column feature row. -/
def posCol (d : Fin 3) : Fin 6 := ⟨d.val, by have := d.isLt; omega⟩

/-- Index of normal column `d` (columns 3..5) inside a 6-column feature row. -/
def normCol (d : Fin 3) : Fin 6 := ⟨d.val + 3, by have := d.isLt; omega⟩

/-- Size bookkeeping and safety check of `fuse_affinities` (part_000 lines
65–74), exactly as the source assigns the four local size constants: both
`numCols1` and `numCols2` are (mistakenly) read from `.rows()`, and the check
reports an error when `(numRows1 != numCols1) || (numCols1 != numRows2)`. -/
def fuse_affinities_size_check (rows1 cols1 rows2 cols2 : ℕ) : Bool :=
  let numRows1 := rows1
  let numRows2 := rows2
  let numCols1 := rows1
  let numCols2 := rows2
  (numRows1 != numCols1) || (numCols1 != numRows2)

/-- Modelled from the spec: `normalize_sparse_matrix` is a helper from
`helper_functions.hpp` that is not among the sources at hand; per the spec
(§4.3, "re-normalize each row to sum to 1") every entry is divided by its
row sum. -/
def normalize_sparse_matrix {n m : ℕ} (M : Fin n → Fin m → ℚ) : Fin n → Fin m → ℚ :=
  fun i j => M i j / (∑ l, M i l)

/-- `fuse_affinities` (part_000 lines 46–84): add the transpose of the
backward affinity to the forward affinity in place, then row-normalize the
result.  `A1` is the N×N_t forward affinity, `A2` the N_t×N backward one. -/
def fuse_affinities {n m : ℕ} (A1 : Fin n → Fin m → ℚ) (A2 : Fin m → Fin n → ℚ) :
    Fin n → Fin m → ℚ :=
  normalize_sparse_matrix (fun i j => A1 i j + A2 j i)

/-- The spec's formulation of symmetric fusion, stated in the spec's words for
the refinement comparison (§4.3): form `A_sym = 0.5·(A_fw + A_bwᵀ)` and then
re-normalize each row to sum to 1. -/
def fuse_affinities_spec {n m : ℕ} (A1 : Fin n → Fin m → ℚ) (A2 : Fin m → Fin n → ℚ) :
    Fin n → Fin m → ℚ :=
  normalize_sparse_matrix (fun i j => (1/2) * (A1 i j + A2 j i))

/-- Corresponding features of `affinity_to_correspondences` (part_000 line
119): `outCorrespondingFeatures = inAffinity * inTargetFeatures`. -/
def affinity_to_correspondences_features {n t : ℕ} (T : Fin t → Fin 6 → ℚ)
    (A : Fin n → Fin t → ℚ) : Fin n → Fin 6 → ℚ :=
  fun i j => ∑ l, A i l * T l j

/-- Raw corresponding flags before rounding (part_000 line 120):
`outCorrespondingFlags = inAffinity * inTargetFlags`. -/
def affinity_to_correspondences_rawFlags {n t : ℕ} (flags : Fin t → ℚ)
    (A : Fin n → Fin t → ℚ) : Fin n → ℚ :=
  fun i => ∑ l, A i l * flags l

/-- Corresponding flags after the rounding loop of
`affinity_to_correspondences` (part_000 lines 116, 125–132).  The loop bound
is `numElements = inTargetFeatures.rows()`, the number of *target* rows `t`,
so entry `i` is rounded against the limit exactly when `i < t`; any later
entry keeps its raw weighted value.  (When `t` exceeds the number of floating
rows `n` the C++ loop even indexes the output vector out of bounds; the
embedding is total and the development only evaluates it at `t ≤ n`.) -/
def affinity_to_correspondences_flags {n t : ℕ} (flags : Fin t → ℚ)
    (A : Fin n → Fin t → ℚ) (paramFlagRoundingLimit : ℚ) : Fin n → ℚ :=
  fun i =>
    if (i : ℕ) < t then
      (if affinity_to_correspondences_rawFlags flags A i > paramFlagRoundingLimit
        then 1 else 0)
    else affinity_to_correspondences_rawFlags flags A i

/-- `vector_block_average` (part_000 lines 302–342): sums the *unweighted*
input vectors and the input weights, then divides the vector sum by the
weight sum. -/
def vector_block_average {v : ℕ} (inVectors : Fin v → Fin 3 → ℚ)
    (inWeights : Fin v → ℚ) : Fin 3 → ℚ :=
  fun d => (∑ i, inVectors i d) / (∑ i, inWeights i)

/-- The uniform (unweighted) average of the input vectors, for comparison with
`vector_block_average`. -/
def uniformAverage {v : ℕ} (inVectors : Fin v → Fin 3 → ℚ) : Fin 3 → ℚ :=
  fun d => (∑ i, inVectors i d) / (v : ℚ)

/-- Squared Euclidean distance between two 3-vectors
(`distanceVector.squaredNorm`, part_000 lines 457–459). -/
def squaredDistance (p q : Fin 3 → ℚ) : ℚ := ∑ d, (p d - q d)^2

/-- Combined weight of neighbour `i` in `gaussian_interpolate_vector_field`
(part_000 lines 462–465): the Gaussian weight of the squared distance times
the user weight.  `gauss` is a parameter standing for the external
`std::exp(-0.5·d²/σ²)` kernel, a strictly positive function of the squared
distance. -/
def gaussianCombinedWeight {v : ℕ} (gauss : ℚ → ℚ) (p : Fin 3 → ℚ)
    (P : Fin v → Fin 3 → ℚ) (w : Fin v → ℚ) (i : Fin v) : ℚ :=
  gauss (squaredDistance (P i) p) * w i

/-- The accumulated weight sum of `gaussian_interpolate_vector_field`
(part_000 lines 454, 471): the divisor of the final normalization. -/
def gaussianSumWeights {v : ℕ} (gauss : ℚ → ℚ) (p : Fin 3 → ℚ)
    (P : Fin v → Fin 3 → ℚ) (w : Fin v → ℚ) : ℚ :=
  ∑ i, gaussianCombinedWeight gauss p P w i

/-- `gaussian_interpolate_vector_field` (part_000 lines 413–477): weighted sum
of the field vectors divided by the accumulated weight sum.  The division
(`outQueriedVector /= sumWeights`, line 475) is unconditional — the source
has no zero-sum fallback. -/
def gaussian_interpolate_vector_field {v : ℕ} (gauss : ℚ → ℚ) (p : Fin 3 → ℚ)
    (V P : Fin v → Fin 3 → ℚ) (w : Fin v → ℚ) : Fin 3 → ℚ :=
  fun d => (∑ i, gaussianCombinedWeight gauss p P w i * V i d) /
    gaussianSumWeights gauss p P w

/-- `gaussian_smoothing_vector_field` (part_000 lines 480–549): for every
field node, gather the `c` neighbouring positions, vectors and weights and
Gaussian-average them at the node's position.  `nbr` is a parameter standing
for the neighbour indices produced by `k_nearest_neighbours`
(`helper_functions.hpp`, not among the sources at hand; per the spec
§4.1/§4.6 they are the k nearest neighbours in the reference position set). -/
def gaussian_smoothing_vector_field {v c : ℕ} (gauss : ℚ → ℚ)
    (nbr : Fin v → Fin c → Fin v) (V P : Fin v → Fin 3 → ℚ)
    (w : Fin v → ℚ) : Fin v → Fin 3 → ℚ :=
  fun i => gaussian_interpolate_vector_field gauss (P i)
    (fun j => V (nbr i j)) (fun j => P (nbr i j)) (fun j => w (nbr i j))

/-- The force field of `viscoelastic_transformation` (part_000 line 602):
corresponding positions minus the floating positions at entry of the call
(the reference frame of the update). -/
def viscoelastic_forceField {n : ℕ} (corr ioF : Fin n → Fin 6 → ℚ) :
    Fin n → Fin 3 → ℚ :=
  fun i d => corr i (posCol d) - ioF i (posCol d)

/-- One smoothing loop of `viscoelastic_transformation` (part_000 lines
607–618 and 627–636).  The pair is (matrix being smoothed, result buffer);
each pass stores the smoothed matrix in the result buffer and copies it back
into the matrix being smoothed. -/
def smoothingLoop {n : ℕ} (smooth : (Fin n → Fin 3 → ℚ) → (Fin n → Fin 3 → ℚ))
    (steps : ℕ) (start : (Fin n → Fin 3 → ℚ) × (Fin n → Fin 3 → ℚ)) :
    (Fin n → Fin 3 → ℚ) × (Fin n → Fin 3 → ℚ) :=
  (fun p => (smooth p.1, smooth p.1))^[steps] start

/-- `viscoelastic_transformation` (part_000 lines 551–643): compute the force
field against the entry positions, smooth it `V` times (viscous part,
starting from a zero result buffer), add it to the displacement field, smooth
the sum `E` times (elastic part), then add the final unregulated field to the
first three columns of the floating features.  Returns the updated feature
matrix (first component) and the updated displacement field
`ioDisplacementField` (second component).  All smoothing passes interpolate
at the entry floating positions. -/
def viscoelastic_transformation {n c : ℕ} (gauss : ℚ → ℚ)
    (nbr : Fin n → Fin c → Fin n)
    (ioFloatingPositions inCorrespondingPositions : Fin n → Fin 6 → ℚ)
    (inFloatingWeights : Fin n → ℚ) (ioDisplacementField : Fin n → Fin 3 → ℚ)
    (paramNumViscousSmoothingIterations paramNumElasticSmoothingIterations : ℕ) :
    (Fin n → Fin 6 → ℚ) × (Fin n → Fin 3 → ℚ) :=
  let floatingPositions : Fin n → Fin 3 → ℚ :=
    fun i d => ioFloatingPositions i (posCol d)
  let smooth := fun M =>
    gaussian_smoothing_vector_field gauss nbr M floatingPositions inFloatingWeights
  let viscous := smoothingLoop smooth paramNumViscousSmoothingIterations
    (viscoelastic_forceField inCorrespondingPositions ioFloatingPositions, fun _ _ => 0)
  let unregulated0 : Fin n → Fin 3 → ℚ :=
    fun i d => ioDisplacementField i d + viscous.2 i d
  let elastic := smoothingLoop smooth paramNumElasticSmoothingIterations
    (unregulated0, ioDisplacementField)
  (fun i cc => if h : (cc : ℕ) < 3
      then ioFloatingPositions i cc + elastic.1 i ⟨cc, h⟩
      else ioFloatingPositions i cc,
   elastic.2)

/-- Floating or corresponding positions as `rigid_transformation` extracts
them (part_000 lines 166–178): the first three feature columns (transposed,
which our function representation absorbs) whenever there are more vertices
than features and the feature count is `NUM_FEATURES = 6`; otherwise the
zero-initialized position matrices are kept (the source merely prints a
warning in that branch). -/
def rigid_positions {n : ℕ} (F : Fin n → Fin 6 → ℚ) : Fin n → Fin 3 → ℚ :=
  fun i d => if 6 < n then F i (posCol d) else 0

/-- Accumulated weight sum of `rigid_transformation` (part_000 lines 184–190). -/
def rigid_sumWeights {n : ℕ} (w : Fin n → ℚ) : ℚ := ∑ i, w i

/-- Weighted floating centroid (part_000 lines 182–193): weighted position
sum divided by the weight sum. -/
def rigid_floatingCentroid {n : ℕ} (F : Fin n → Fin 6 → ℚ) (w : Fin n → ℚ) :
    Fin 3 → ℚ :=
  fun d => (∑ i, w i * rigid_positions F i d) / rigid_sumWeights w

/-- Weighted corresponding centroid (part_000 lines 183–193). -/
def rigid_correspondingCentroid {n : ℕ} (C : Fin n → Fin 6 → ℚ) (w : Fin n → ℚ) :
    Fin 3 → ℚ :=
  fun d => (∑ i, w i * rigid_positions C i d) / rigid_sumWeights w

/-- Cross variance matrix (part_000 lines 196–200): weighted sum of the outer
products, divided by the weight sum, minus the outer product of the
centroids. -/
def rigid_crossVarianceMatrix {n : ℕ} (F C : Fin n → Fin 6 → ℚ) (w : Fin n → ℚ) :
    Fin 3 → Fin 3 → ℚ :=
  fun a b =>
    (∑ i, w i * rigid_positions F i a * rigid_positions C i b) / rigid_sumWeights w
      - rigid_floatingCentroid F w a * rigid_correspondingCentroid C w b

/-- Anti-symmetric part of the cross variance matrix (part_000 line 203). -/
def rigid_antiSymmetricMatrix {n : ℕ} (F C : Fin n → Fin 6 → ℚ) (w : Fin n → ℚ) :
    Fin 3 → Fin 3 → ℚ :=
  fun a b => rigid_crossVarianceMatrix F C w a b - rigid_crossVarianceMatrix F C w b a

/-- The cyclic vector delta (part_000 lines 206–209). -/
def rigid_delta {n : ℕ} (F C : Fin n → Fin 6 → ℚ) (w : Fin n → ℚ) : Fin 3 → ℚ :=
  ![rigid_antiSymmetricMatrix F C w 1 2,
    rigid_antiSymmetricMatrix F C w 2 0,
    rigid_antiSymmetricMatrix F C w 0 1]

/-- The symmetric 4×4 matrix Q (part_000 lines 212–217) whose dominant
eigenvector is the rotation quaternion.  Its eigendecomposition is performed
by Eigen's `SelfAdjointEigenSolver` (external library code); the quaternion
it returns enters the remaining definitions as a parameter `q`. -/
def rigid_Q {n : ℕ} (F C : Fin n → Fin 6 → ℚ) (w : Fin n → ℚ) :
    Fin 4 → Fin 4 → ℚ :=
  let S := rigid_crossVarianceMatrix F C w
  let tr := S 0 0 + S 1 1 + S 2 2
  let dl := rigid_delta F C w
  ![![tr, dl 0, dl 1, dl 2],
    ![dl 0, S 0 0 + S 0 0 - tr, S 0 1 + S 1 0, S 0 2 + S 2 0],
    ![dl 1, S 1 0 + S 0 1, S 1 1 + S 1 1 - tr, S 1 2 + S 2 1],
    ![dl 2, S 2 0 + S 0 2, S 2 1 + S 1 2, S 2 2 + S 2 2 - tr]]

/-- Rotation matrix built from the quaternion (part_000 lines 238–249), entry
by entry as the source writes it. -/
def rigid_rotationMatrix3 (q : Fin 4 → ℚ) : Fin 3 → Fin 3 → ℚ :=
  ![![q 0 * q 0 + q 1 * q 1 - q 2 * q 2 - q 3 * q 3,
     2 * (q 1 * q 2 - q 0 * q 3),
     2 * (q 1 * q 3 + q 0 * q 2)],
    ![2 * (q 1 * q 2 + q 0 * q 3),
     q 0 * q 0 + q 2 * q 2 - q 1 * q 1 - q 3 * q 3,
     2 * (q 2 * q 3 - q 0 * q 1)],
    ![2 * (q 1 * q 3 - q 0 * q 2),
     2 * (q 2 * q 3 + q 0 * q 1),
     q 0 * q 0 + q 3 * q 3 - q 1 * q 1 - q 2 * q 2]]

/-- Scale factor (part_000 lines 252–267): 1 unless scaling is enabled, else
the weighted ratio of the centered-and-rotated products. -/
def rigid_scaleFactor {n : ℕ} (q : Fin 4 → ℚ) (F C : Fin n → Fin 6 → ℚ)
    (w : Fin n → ℚ) (paramScaling : Bool) : ℚ :=
  if paramScaling then
    (∑ i, w i * ∑ d, (rigid_positions C i d - rigid_correspondingCentroid C w d) *
        (∑ e, rigid_rotationMatrix3 q d e *
          (rigid_positions F i e - rigid_floatingCentroid F w e))) /
    (∑ i, w i * ∑ d, (∑ e, rigid_rotationMatrix3 q d e *
        (rigid_positions F i e - rigid_floatingCentroid F w e))^2)
  else 1

/-- Translation (part_000 line 271):
`correspondingCentroid − scaleFactor · R · floatingCentroid`. -/
def rigid_translation {n : ℕ} (q : Fin 4 → ℚ) (F C : Fin n → Fin 6 → ℚ)
    (w : Fin n → ℚ) (paramScaling : Bool) : Fin 3 → ℚ :=
  fun d => rigid_correspondingCentroid C w d -
    rigid_scaleFactor q F C w paramScaling *
      ∑ e, rigid_rotationMatrix3 q d e * rigid_floatingCentroid F w e

/-- 4×4 matrix product. -/
def mat4Mul (A B : Fin 4 → Fin 4 → ℚ) : Fin 4 → Fin 4 → ℚ :=
  fun i j => ∑ l, A i l * B l j

/-- Homogeneous translation matrix (part_000 lines 275, 279). -/
def rigid_translationMatrix4 (t : Fin 3 → ℚ) : Fin 4 → Fin 4 → ℚ :=
  ![![1, 0, 0, t 0], ![0, 1, 0, t 1], ![0, 0, 1, t 2], ![0, 0, 0, 1]]

/-- Homogeneous scaled rotation matrix (part_000 lines 276, 280). -/
def rigid_rotationMatrix4 (s : ℚ) (R : Fin 3 → Fin 3 → ℚ) : Fin 4 → Fin 4 → ℚ :=
  ![![s * R 0 0, s * R 0 1, s * R 0 2, 0],
    ![s * R 1 0, s * R 1 1, s * R 1 2, 0],
    ![s * R 2 0, s * R 2 1, s * R 2 2, 0],
    ![0, 0, 0, 1]]

/-- Full transformation matrix (part_000 lines 281–284): the source
multiplies `rotationMatrix * translationMatrix`, so the translation is
applied to the data before the scaled rotation. -/
def rigid_transformationMatrix {n : ℕ} (q : Fin 4 → ℚ) (F C : Fin n → Fin 6 → ℚ)
    (w : Fin n → ℚ) (paramScaling : Bool) : Fin 4 → Fin 4 → ℚ :=
  mat4Mul
    (rigid_rotationMatrix4 (rigid_scaleFactor q F C w paramScaling)
      (rigid_rotationMatrix3 q))
    (rigid_translationMatrix4 (rigid_translation q F C w paramScaling))

/-- Homogeneous `[x y z 1]` coordinates of floating position `i` (part_000
lines 288–293; the fourth component stays 1 across the loop because the last
row of the transformation matrix is `[0 0 0 1]`). -/
def rigid_position4d {n : ℕ} (F : Fin n → Fin 6 → ℚ) (i : Fin n) : Fin 4 → ℚ :=
  fun l => if h : (l : ℕ) < 3 then rigid_positions F i ⟨l, h⟩ else 1

/-- `rigid_transformation` (part_000 lines 140–296): applies the
transformation matrix to each homogeneous floating position and writes the
result into the first three columns of the feature row (line 294,
`ioFeatures.block<1,3>(i,0) = position4d.segment(0, 3)`).  The remaining
(normal) columns are never written by the function. -/
def rigid_transformation {n : ℕ} (q : Fin 4 → ℚ)
    (ioFeatures inCorrespondingFeatures : Fin n → Fin 6 → ℚ)
    (inWeights : Fin n → ℚ) (paramScaling : Bool) : Fin n → Fin 6 → ℚ :=
  fun i cc => if h : (cc : ℕ) < 3
    then ∑ l, rigid_transformationMatrix q ioFeatures inCorrespondingFeatures
        inWeights paramScaling ⟨cc, by omega⟩ l * rigid_position4d ioFeatures i l
    else ioFeatures i cc

/-- Squared Euclidean norm of the normal part (columns 3..5) of feature row
`i`; `‖n‖ ∈ [1−ε, 1+ε]` with `0 ≤ 1−ε` is equivalent to
`‖n‖² ∈ [(1−ε)², (1+ε)²]`. -/
def normalNormSq {n : ℕ} (F : Fin n → Fin 6 → ℚ) (i : Fin n) : ℚ :=
  ∑ d : Fin 3, (F i (normCol d))^2

/-- A concrete 7-vertex floating feature matrix: every position (0,1,0) and
every normal (0,0,1). -/
def exampleFloating : Fin 7 → Fin 6 → ℚ := fun _ => ![0, 1, 0, 0, 0, 1]

/-- A concrete 7-vertex floating feature matrix whose first row carries the
non-unit normal (0,0,2). -/
def exampleFloatingBadNormal : Fin 7 → Fin 6 → ℚ := fun _ => ![0, 1, 0, 0, 0, 2]

/-- Concrete corresponding features: every position (1,1,0), normals (0,0,1). -/
def exampleCorresponding : Fin 7 → Fin 6 → ℚ := fun _ => ![1, 1, 0, 0, 0, 1]

/-- A rational unit quaternion (3/5, 4/5, 0, 0); its rotation matrix is the
rational rotation about the x-axis with cosine −7/25. -/
def exampleQuat : Fin 4 → ℚ := ![3/5, 4/5, 0, 0]

/-- Helper: after at least one pass, the two buffers of a smoothing loop hold
the same matrix (the loop body writes the smoothed matrix into both). -/
theorem smoothingLoop_fst_eq_snd {n : ℕ}
    (smooth : (Fin n → Fin 3 → ℚ) → (Fin n → Fin 3 → ℚ)) (steps : ℕ)
    (hs : 1 ≤ steps) (start : (Fin n → Fin 3 → ℚ) × (Fin n → Fin 3 → ℚ)) :
    (smoothingLoop smooth steps start).1 = (smoothingLoop smooth steps start).2 := by
  obtain ⟨s, rfl⟩ : ∃ s, steps = s + 1 := ⟨steps - 1, by omega⟩
  unfold smoothingLoop
  rw [Function.iterate_succ_apply']

/-- C9: the input-shape safety check of `fuse_affinities` reads `.rows()`
where column counts are intended, so it fires exactly when the two row counts
differ: it (spuriously) reports a size error for every correctly transposed
rectangular pair of shapes N×N_t and N_t×N with N ≠ N_t, and reports none for
any two inputs with equal row counts whatever their column counts. -/
theorem fuse_affinities_size_check_reads_rows_only :
    (∀ N Nt : ℕ, N ≠ Nt → fuse_affinities_size_check N Nt Nt N = true) ∧
    (∀ r c1 c2 : ℕ, fuse_affinities_size_check r c1 r c2 = false) := by
  constructor
  · intro N Nt h
    simp [fuse_affinities_size_check, bne_iff_ne, h]
  · intro r c1 c2
    simp [fuse_affinities_size_check]

/-- C9 witness: the check fires for the correctly transposed pair of shapes
2×3 and 3×2, and stays silent for two 5-row inputs with column counts 9 and 4
that match neither the row counts nor each other. -/
theorem fuse_affinities_size_check_reads_rows_only_witness :
    fuse_affinities_size_check 2 3 3 2 = true ∧
    fuse_affinities_size_check 5 9 5 4 = false :=
  ⟨fuse_affinities_size_check_reads_rows_only.1 2 3 (by norm_num),
   fuse_affinities_size_check_reads_rows_only.2 5 9 4⟩

/-- C4: the source's fusion (add the transposed backward affinity, then
row-normalize) produces the same matrix as the spec's formulation
(`A_sym = 0.5·(A_fw + A_bwᵀ)`, then row-normalize) whenever every row of the
summed matrix has non-zero row sum — the factor 0.5 cancels under row
normalization. -/
theorem fuse_affinities_eq_spec {n m : ℕ} (A1 : Fin n → Fin m → ℚ)
    (A2 : Fin m → Fin n → ℚ)
    (h : ∀ i, (∑ j, (A1 i j + A2 j i)) ≠ 0) :
    fuse_affinities A1 A2 = fuse_affinities_spec A1 A2 := by
  funext i j
  unfold fuse_affinities fuse_affinities_spec normalize_sparse_matrix
  rw [← Finset.mul_sum, mul_div_mul_left _ _ (by norm_num : (1/2 : ℚ) ≠ 0)]

/-- C4 witness: the two fusions agree on the concrete all-ones 1×1 pair,
whose single summed row sums to 2 ≠ 0. -/
theorem fuse_affinities_eq_spec_witness :
    (∀ i : Fin 1, (∑ j : Fin 1, (((fun _ _ => 1) : Fin 1 → Fin 1 → ℚ) i j +
      ((fun _ _ => 1) : Fin 1 → Fin 1 → ℚ) j i)) ≠ 0) ∧
    fuse_affinities ((fun _ _ => 1) : Fin 1 → Fin 1 → ℚ)
        ((fun _ _ => 1) : Fin 1 → Fin 1 → ℚ) =
      fuse_affinities_spec ((fun _ _ => 1) : Fin 1 → Fin 1 → ℚ)
        ((fun _ _ => 1) : Fin 1 → Fin 1 → ℚ) :=
  ⟨by intro i; norm_num [Fin.sum_univ_succ],
   fuse_affinities_eq_spec _ _ (by intro i; norm_num [Fin.sum_univ_succ])⟩

/-- C6: the matrix returned by `fuse_affinities` is row-stochastic — with
non-negative input affinities, every row of the summed matrix that has a
non-zero entry sums to exactly 1 after normalization. -/
theorem fuse_affinities_row_sum_one {n m : ℕ} (A1 : Fin n → Fin m → ℚ)
    (A2 : Fin m → Fin n → ℚ)
    (h1 : ∀ i j, 0 ≤ A1 i j) (h2 : ∀ j i, 0 ≤ A2 j i)
    (h3 : ∀ i, ∃ j, A1 i j + A2 j i ≠ 0) :
    ∀ i, (∑ j, fuse_affinities A1 A2 i j) = 1 := by
  intro i
  have hpos : 0 < ∑ l, (A1 i l + A2 l i) := by
    obtain ⟨j, hj⟩ := h3 i
    refine Finset.sum_pos' (fun l _ => add_nonneg (h1 i l) (h2 l i))
      ⟨j, Finset.mem_univ j, ?_⟩
    exact lt_of_le_of_ne (add_nonneg (h1 i j) (h2 j i)) (Ne.symm hj)
  unfold fuse_affinities normalize_sparse_matrix
  rw [← Finset.sum_div, div_self (ne_of_gt hpos)]

/-- C6 witness: on the concrete all-ones 1×1 pair (non-negative entries, the
single summed row non-zero) the fused row sums to 1. -/
theorem fuse_affinities_row_sum_one_witness :
    (∀ i j : Fin 1, (0:ℚ) ≤ ((fun _ _ => 1) : Fin 1 → Fin 1 → ℚ) i j) ∧
    (∀ i : Fin 1, ∃ j : Fin 1, ((fun _ _ => 1) : Fin 1 → Fin 1 → ℚ) i j +
      ((fun _ _ => 1) : Fin 1 → Fin 1 → ℚ) j i ≠ 0) ∧
    (∑ j, fuse_affinities ((fun _ _ => 1) : Fin 1 → Fin 1 → ℚ)
      ((fun _ _ => 1) : Fin 1 → Fin 1 → ℚ) 0 j) = 1 :=
  ⟨by intro i j; norm_num,
   by intro i; exact ⟨0, by norm_num⟩,
   fuse_affinities_row_sum_one _ _ (by intro i j; norm_num)
     (by intro j i; norm_num) (by intro i; exact ⟨0, by norm_num⟩) 0⟩

/-- C5 (code bug): the rounding loop of `affinity_to_correspondences` runs
over `inTargetFeatures.rows()` instead of the output length.  With 3 floating
rows, 2 target rows, binary target flags (1,0) and a row-stochastic affinity
whose third row is (1/2, 1/2), the third output flag keeps its raw weighted
value 1/2 — it is neither 0 nor 1 and is not governed by the 0.9 threshold,
although the first two (rounded) flags behave as claimed. -/
theorem affinity_flags_rounding_skips_rows :
    affinity_to_correspondences_flags (![1, 0] : Fin 2 → ℚ)
      (![![1, 0], ![0, 1], ![1/2, 1/2]] : Fin 3 → Fin 2 → ℚ) (9/10) =
      (![1, 0, 1/2] : Fin 3 → ℚ) ∧
    ((1 : ℚ)/2 ≠ 0 ∧ (1 : ℚ)/2 ≠ 1) := by
  refine ⟨?_, by norm_num, by norm_num⟩
  funext i
  fin_cases i <;>
    simp [affinity_to_correspondences_flags, affinity_to_correspondences_rawFlags,
      Fin.sum_univ_succ] <;> norm_num

/-- C10 counterexample: with the non-empty vector set (1,0,0), (−1,0,0)
(whose unweighted sum is zero) and weights (2,3) (weight sum 5 ≠ 0),
`vector_block_average` equals the uniform average of the vectors although the
weights do not sum to the number of vectors — the claim's "only when the
weights sum to the number of vectors" fails at this input. -/
theorem vector_block_average_only_when_fails :
    (∑ i, (![2, 3] : Fin 2 → ℚ) i) ≠ 0 ∧
    vector_block_average (![![1,0,0], ![-1,0,0]] : Fin 2 → Fin 3 → ℚ) ![2, 3] =
      uniformAverage (![![1,0,0], ![-1,0,0]] : Fin 2 → Fin 3 → ℚ) ∧
    (∑ i, (![2, 3] : Fin 2 → ℚ) i) ≠ ((2 : ℕ) : ℚ) := by
  refine ⟨by norm_num [Fin.sum_univ_succ], ?_, by norm_num [Fin.sum_univ_succ]⟩
  funext d
  fin_cases d <;>
    norm_num [vector_block_average, uniformAverage, Fin.sum_univ_succ]

/-- C10 (amended): for every non-empty vector set and weight vector with
non-zero weight sum, `vector_block_average` returns the unweighted sum of the
vectors divided by the sum of the weights; consequently it equals the uniform
average of the vectors whenever the weights sum to the number of vectors,
and — provided the unweighted vector sum is non-zero — only then. -/
theorem vector_block_average_characterization {v : ℕ}
    (inVectors : Fin v → Fin 3 → ℚ) (inWeights : Fin v → ℚ)
    (hw : (∑ i, inWeights i) ≠ 0) :
    vector_block_average inVectors inWeights =
      (fun d => (∑ i, inVectors i d) / (∑ i, inWeights i)) ∧
    ((∑ i, inWeights i) = (v : ℚ) →
      vector_block_average inVectors inWeights = uniformAverage inVectors) ∧
    ((∃ d, (∑ i, inVectors i d) ≠ 0) →
      vector_block_average inVectors inWeights = uniformAverage inVectors →
      (∑ i, inWeights i) = (v : ℚ)) := by
  refine ⟨rfl, ?_, ?_⟩
  · intro h
    funext d
    unfold vector_block_average uniformAverage
    rw [h]
  · rintro ⟨d, hd⟩ heq
    have hv : v ≠ 0 := by
      intro h0
      subst h0
      simp at hd
    have hvq : ((v : ℚ)) ≠ 0 := Nat.cast_ne_zero.mpr hv
    have hcomp := congrFun heq d
    unfold vector_block_average uniformAverage at hcomp
    rw [div_eq_div_iff hw hvq] at hcomp
    exact (mul_left_cancel₀ hd hcomp).symm

/-- C10 witness: at the single vector (1,0,0) with weight 2 the weight sum is
2 ≠ 0 and the returned vector is the vector sum divided by the weight sum. -/
theorem vector_block_average_characterization_witness :
    (∑ i, (![2] : Fin 1 → ℚ) i) ≠ 0 ∧
    vector_block_average (![![1,0,0]] : Fin 1 → Fin 3 → ℚ) ![2] =
      (fun d => (∑ i, (![![1,0,0]] : Fin 1 → Fin 3 → ℚ) i d) /
        (∑ i, (![2] : Fin 1 → ℚ) i)) :=
  ⟨by norm_num [Fin.sum_univ_succ],
   (vector_block_average_characterization _ _ (by norm_num [Fin.sum_univ_succ])).1⟩

/-- C7 counterexample: `gaussian_interpolate_vector_field` normalizes by the
accumulated weight sum unconditionally (the second conjunct is the
definitional shape of the function: a division by `gaussianSumWeights`).
With the positive kernel value 1 and a single gathered user weight 0 all
combined weights are zero and that divisor is exactly 0 — the division by a
zero weight sum does happen; there is no local fallback. -/
theorem gaussian_interpolate_divides_by_zero_sum :
    gaussianSumWeights (fun _ => 1) (![0,0,0]) (![![0,0,0]] : Fin 1 → Fin 3 → ℚ)
      (![0] : Fin 1 → ℚ) = 0 ∧
    gaussian_interpolate_vector_field (fun _ => 1) ![0,0,0]
        (![![3,4,5]] : Fin 1 → Fin 3 → ℚ) (![![0,0,0]] : Fin 1 → Fin 3 → ℚ) ![0] =
      fun d => (∑ i, gaussianCombinedWeight (fun _ => 1) ![0,0,0]
          (![![0,0,0]] : Fin 1 → Fin 3 → ℚ) ![0] i *
            (![![3,4,5]] : Fin 1 → Fin 3 → ℚ) i d) /
        gaussianSumWeights (fun _ => 1) ![0,0,0]
          (![![0,0,0]] : Fin 1 → Fin 3 → ℚ) ![0] :=
  ⟨by norm_num [gaussianSumWeights, gaussianCombinedWeight, Fin.sum_univ_succ], rfl⟩

/-- C7 (amended): the Gaussian vector-field averaging has no zero-sum
fallback — it always divides by the accumulated weight sum; with a strictly
positive kernel (as `std::exp` is) and non-negative user weights, that
divisor is zero exactly when all gathered user weights are zero. -/
theorem gaussianSumWeights_eq_zero_iff {v : ℕ} (gauss : ℚ → ℚ) (p : Fin 3 → ℚ)
    (P : Fin v → Fin 3 → ℚ) (w : Fin v → ℚ)
    (hg : ∀ x, 0 < gauss x) (hw : ∀ i, 0 ≤ w i) :
    gaussianSumWeights gauss p P w = 0 ↔ ∀ i, w i = 0 := by
  unfold gaussianSumWeights gaussianCombinedWeight
  rw [Finset.sum_eq_zero_iff_of_nonneg
    (fun i _ => mul_nonneg (le_of_lt (hg _)) (hw i))]
  constructor
  · intro h i
    rcases mul_eq_zero.mp (h i (Finset.mem_univ i)) with h1 | h2
    · exact absurd h1 (ne_of_gt (hg _))
    · exact h2
  · intro h i _
    rw [h i, mul_zero]

/-- C7 witness: with the constant kernel 1 (positive) and the single
non-negative user weight 0 the divisor is zero, and indeed all user weights
are zero. -/
theorem gaussianSumWeights_eq_zero_iff_witness :
    (∀ x : ℚ, 0 < (fun _ => (1:ℚ)) x) ∧
    (gaussianSumWeights (fun _ => 1) (![0,0,0]) (![![0,0,0]] : Fin 1 → Fin 3 → ℚ)
      (![0] : Fin 1 → ℚ) = 0 ↔ ∀ i : Fin 1, (![0] : Fin 1 → ℚ) i = 0) :=
  ⟨fun _ => one_pos,
   gaussianSumWeights_eq_zero_iff _ _ _ _ (fun _ => one_pos)
     (by intro i; fin_cases i; norm_num)⟩

/-- Helper: the weight sum of seven unit weights is 7. -/
theorem exampleSumWeights : rigid_sumWeights (fun _ : Fin 7 => (1:ℚ)) = 7 := by
  norm_num [rigid_sumWeights, Finset.sum_const, Finset.card_univ]

/-- Helper: the weighted floating centroid of the example data is (0,1,0). -/
theorem exampleFloatingCentroid :
    rigid_floatingCentroid exampleFloating (fun _ => 1) = ![0, 1, 0] := by
  funext d
  fin_cases d <;>
    norm_num [rigid_floatingCentroid, rigid_positions, rigid_sumWeights,
      exampleFloating, posCol, Finset.sum_const, Finset.card_univ]

/-- Helper: the weighted corresponding centroid of the example data is (1,1,0). -/
theorem exampleCorrespondingCentroid :
    rigid_correspondingCentroid exampleCorresponding (fun _ => 1) = ![1, 1, 0] := by
  funext d
  fin_cases d <;>
    norm_num [rigid_correspondingCentroid, rigid_positions, rigid_sumWeights,
      exampleCorresponding, posCol, Finset.sum_const, Finset.card_univ]

/-- Helper: the rotation matrix of the example quaternion (3/5, 4/5, 0, 0). -/
theorem exampleRotation : rigid_rotationMatrix3 exampleQuat =
    ![![1, 0, 0], ![0, -7/25, -24/25], ![0, 24/25, -7/25]] := by
  funext a b
  fin_cases a <;> fin_cases b <;> norm_num [rigid_rotationMatrix3, exampleQuat]

/-- Helper: the translation `μ_c − sR·μ_f` computed on the example data. -/
theorem exampleTranslation :
    rigid_translation exampleQuat exampleFloating exampleCorresponding
      (fun _ => 1) false = ![1, 32/25, -24/25] := by
  funext d
  fin_cases d <;>
    norm_num [rigid_translation, rigid_scaleFactor, exampleRotation,
      exampleFloatingCentroid, exampleCorrespondingCentroid, Fin.sum_univ_three]

/-- Helper: the full transformation matrix on the example data; because the
source multiplies `rotationMatrix * translationMatrix`, the last column is
`R·t`, not `t`. -/
theorem exampleTransformationMatrix :
    rigid_transformationMatrix exampleQuat exampleFloating exampleCorresponding
      (fun _ => 1) false =
    ![![1, 0, 0, 1],
      ![0, -7/25, -24/25, 352/625],
      ![0, 24/25, -7/25, 936/625],
      ![0, 0, 0, 1]] := by
  funext a b
  fin_cases a <;> fin_cases b <;>
    norm_num [rigid_transformationMatrix, mat4Mul, rigid_rotationMatrix4,
      rigid_translationMatrix4, rigid_scaleFactor, exampleRotation,
      exampleTranslation, Fin.sum_univ_four, Matrix.vecHead, Matrix.vecTail]

/-- Helper: the homogeneous coordinates of example floating position 0. -/
theorem examplePosition4d :
    rigid_position4d exampleFloating 0 = ![0, 1, 0, 1] := by
  funext l
  fin_cases l <;>
    norm_num [rigid_position4d, rigid_positions, exampleFloating, posCol]

/-- Helper: the output position row the code produces on the example data. -/
theorem exampleRigidOutput :
    (fun d : Fin 3 => rigid_transformation exampleQuat exampleFloating
      exampleCorresponding (fun _ => 1) false 0 (posCol d)) =
    ![1, 177/625, 1536/625] := by
  funext d
  fin_cases d <;>
    norm_num [rigid_transformation, exampleTransformationMatrix,
      examplePosition4d, posCol, Fin.sum_univ_four, Matrix.vecHead,
      Matrix.vecTail]

/-- C2 (code bug): the source composes
`transformationMatrix = rotationMatrix * translationMatrix`, applying the
translation to the data *before* the scaled rotation.  At the concrete input
(7 vertices at (0,1,0), correspondences at (1,1,0), unit weights, the
rotation quaternion (3/5,4/5,0,0), no scaling) the produced position row 0
equals `sR·(f + t)` but differs from the claimed `sR·f + t` with
`t = μ_c − sR·μ_f`. -/
theorem rigid_transformation_translation_composed_wrongly :
    ((fun d : Fin 3 => rigid_transformation exampleQuat exampleFloating
        exampleCorresponding (fun _ => 1) false 0 (posCol d)) =
      (fun d => rigid_scaleFactor exampleQuat exampleFloating exampleCorresponding
          (fun _ => 1) false *
        ∑ e, rigid_rotationMatrix3 exampleQuat d e *
          (rigid_positions exampleFloating 0 e +
            rigid_translation exampleQuat exampleFloating exampleCorresponding
              (fun _ => 1) false e))) ∧
    ((fun d : Fin 3 => rigid_transformation exampleQuat exampleFloating
        exampleCorresponding (fun _ => 1) false 0 (posCol d)) ≠
      (fun d => rigid_scaleFactor exampleQuat exampleFloating exampleCorresponding
          (fun _ => 1) false *
        (∑ e, rigid_rotationMatrix3 exampleQuat d e *
          rigid_positions exampleFloating 0 e) +
        rigid_translation exampleQuat exampleFloating exampleCorresponding
          (fun _ => 1) false d)) := by
  constructor
  · rw [exampleRigidOutput]
    funext d
    fin_cases d <;>
      norm_num [rigid_scaleFactor, exampleRotation, exampleTranslation,
        rigid_positions, exampleFloating, posCol, Fin.sum_univ_three]
  · rw [exampleRigidOutput]
    intro h
    have h1 := congrFun h 1
    norm_num [rigid_scaleFactor, exampleRotation, exampleTranslation,
      rigid_positions, exampleFloating, posCol, Fin.sum_univ_three] at h1

/-- C3 counterexample: running `rigid_transformation` on features whose
normal columns hold (0,0,2) returns that normal untouched: its squared norm
is 4, while a norm in [1 − 1e-5, 1 + 1e-5] (both ends non-negative) would
have its square in [(1 − 1e-5)², (1 + 1e-5)²].  The output normal is neither
rotated nor renormalized to unit length. -/
theorem rigid_transformation_normal_not_unit :
    normalNormSq (rigid_transformation exampleQuat exampleFloatingBadNormal
      exampleCorresponding (fun _ => 1) false) 0 = 4 ∧
    ¬(((1 : ℚ) - 1/100000)^2 ≤ 4 ∧ (4 : ℚ) ≤ ((1 : ℚ) + 1/100000)^2) := by
  refine ⟨?_, by norm_num⟩
  norm_num [normalNormSq, rigid_transformation, normCol,
    exampleFloatingBadNormal, Fin.sum_univ_three]

/-- C3 (amended): `rigid_transformation` never writes the normal columns —
for every input, every feature row's normal part (columns 3..5) is returned
unchanged, so normals are neither rotated by the computed rotation nor
renormalized. -/
theorem rigid_transformation_preserves_normals {n : ℕ} (q : Fin 4 → ℚ)
    (ioFeatures inCorrespondingFeatures : Fin n → Fin 6 → ℚ)
    (inWeights : Fin n → ℚ) (paramScaling : Bool) (i : Fin n) (d : Fin 3) :
    rigid_transformation q ioFeatures inCorrespondingFeatures inWeights
      paramScaling i (normCol d) = ioFeatures i (normCol d) := by
  have h3 : ¬ (((normCol d : Fin 6)) : ℕ) < 3 := by simp [normCol]
  simp [rigid_transformation, h3]

/-- Helper: with all-zero weights both weighted centroids evaluate (in the
exact-arithmetic model, where x/0 = 0) to the zero vector. -/
theorem exampleZeroWeightCentroids :
    rigid_floatingCentroid exampleFloating (fun _ => 0) = ![0, 0, 0] ∧
    rigid_correspondingCentroid exampleCorresponding (fun _ => 0) = ![0, 0, 0] := by
  constructor <;> funext d <;> fin_cases d <;>
    norm_num [rigid_floatingCentroid, rigid_correspondingCentroid,
      rigid_positions, rigid_sumWeights, exampleFloating, exampleCorresponding,
      posCol, Finset.sum_const, Finset.card_univ]

/-- Helper: with all-zero weights the translation is the zero vector, so the
transformation matrix degenerates to the homogeneous rotation matrix. -/
theorem exampleZeroWeightTransformationMatrix :
    rigid_transformationMatrix exampleQuat exampleFloating exampleCorresponding
      (fun _ => 0) false =
    ![![1, 0, 0, 0],
      ![0, -7/25, -24/25, 0],
      ![0, 24/25, -7/25, 0],
      ![0, 0, 0, 1]] := by
  have ht : rigid_translation exampleQuat exampleFloating exampleCorresponding
      (fun _ => 0) false = ![0, 0, 0] := by
    funext d
    fin_cases d <;>
      norm_num [rigid_translation, rigid_scaleFactor, exampleRotation,
        exampleZeroWeightCentroids.1, exampleZeroWeightCentroids.2,
        Fin.sum_univ_three]
  funext a b
  fin_cases a <;> fin_cases b <;>
    norm_num [rigid_transformationMatrix, mat4Mul, rigid_rotationMatrix4,
      rigid_translationMatrix4, rigid_scaleFactor, exampleRotation, ht,
      Fin.sum_univ_four, Matrix.vecHead, Matrix.vecTail]

/-- C8 (code bug): at an all-zero weight vector the accumulated weight sum of
`rigid_transformation` is exactly 0, yet the function performs no
degenerate-weight check: the centroids are computed by dividing by that zero
sum and the transformed positions are written unconditionally.  At the
concrete input below the output features differ from the input features, so
the update is neither skipped (leaving the features unchanged) nor aborted. -/
theorem rigid_transformation_zero_weights_writes :
    rigid_sumWeights (fun _ : Fin 7 => (0:ℚ)) = 0 ∧
    rigid_transformation exampleQuat exampleFloating exampleCorresponding
      (fun _ => 0) false ≠ exampleFloating := by
  constructor
  · norm_num [rigid_sumWeights, Finset.sum_const, Finset.card_univ]
  · intro h
    have h1 := congrFun (congrFun h 0) (posCol 1)
    rw [show exampleFloating 0 (posCol 1) = 1 by norm_num [exampleFloating, posCol]] at h1
    norm_num [rigid_transformation, exampleZeroWeightTransformationMatrix,
      examplePosition4d, posCol, Fin.sum_univ_four, Matrix.vecHead,
      Matrix.vecTail] at h1

/-- C1: for every call of `viscoelastic_transformation` with at least one
elastic smoothing iteration (the claim presupposes the elastic smoothing of
D has happened), the output floating positions equal the reference positions
of the call — the floating positions at entry — plus the updated
displacement field, and the force field driving the update is computed
against those same fixed reference positions. -/
theorem viscoelastic_positions_eq_reference_plus_displacement {n c : ℕ}
    (gauss : ℚ → ℚ) (nbr : Fin n → Fin c → Fin n)
    (ioFloatingPositions inCorrespondingPositions : Fin n → Fin 6 → ℚ)
    (inFloatingWeights : Fin n → ℚ) (ioDisplacementField : Fin n → Fin 3 → ℚ)
    (V E : ℕ) (hE : 1 ≤ E) :
    (∀ (i : Fin n) (d : Fin 3),
      (viscoelastic_transformation gauss nbr ioFloatingPositions
        inCorrespondingPositions inFloatingWeights ioDisplacementField V E).1
          i (posCol d) =
      ioFloatingPositions i (posCol d) +
      (viscoelastic_transformation gauss nbr ioFloatingPositions
        inCorrespondingPositions inFloatingWeights ioDisplacementField V E).2
          i d) ∧
    (∀ (i : Fin n) (d : Fin 3),
      viscoelastic_forceField inCorrespondingPositions ioFloatingPositions i d =
      inCorrespondingPositions i (posCol d) - ioFloatingPositions i (posCol d)) := by
  refine ⟨?_, fun i d => rfl⟩
  intro i d
  have hpos : (((posCol d) : Fin 6) : ℕ) < 3 := by
    simp [posCol]
  have hfin : (⟨(((posCol d) : Fin 6) : ℕ), hpos⟩ : Fin 3) = d := by
    simp [posCol]
  simp only [viscoelastic_transformation]
  rw [dif_pos hpos, hfin, smoothingLoop_fst_eq_snd _ E hE]

/-- C1 witness: a concrete one-vertex instance with one viscous and one
elastic iteration (1 ≤ 1), constant kernel 1 and the only possible neighbour
map; the first output position column equals the entry position plus the
returned displacement field entry. -/
theorem viscoelastic_positions_eq_reference_plus_displacement_witness :
    1 ≤ 1 ∧
    (viscoelastic_transformation (fun _ => 1)
      ((fun _ _ => 0) : Fin 1 → Fin 1 → Fin 1)
      ((fun _ => ![5, 0, 0, 0, 0, 1]) : Fin 1 → Fin 6 → ℚ)
      ((fun _ => ![7, 0, 0, 0, 0, 1]) : Fin 1 → Fin 6 → ℚ)
      (fun _ => 1) ((fun _ _ => 2) : Fin 1 → Fin 3 → ℚ) 1 1).1 0 (posCol 0) =
    ((fun _ => ![5, 0, 0, 0, 0, 1]) : Fin 1 → Fin 6 → ℚ) 0 (posCol 0) +
    (viscoelastic_transformation (fun _ => 1)
      ((fun _ _ => 0) : Fin 1 → Fin 1 → Fin 1)
      ((fun _ => ![5, 0, 0, 0, 0, 1]) : Fin 1 → Fin 6 → ℚ)
      ((fun _ => ![7, 0, 0, 0, 0, 1]) : Fin 1 → Fin 6 → ℚ)
      (fun _ => 1) ((fun _ _ => 2) : Fin 1 → Fin 3 → ℚ) 1 1).2 0 0 :=
  ⟨le_refl 1,
   (viscoelastic_positions_eq_reference_plus_displacement _ _ _ _ _ _ 1 1
     (le_refl 1)).1 0 0⟩

end registration
